import Mathlib

/-!
Shallow embedding of the terra-vista elevation ingestion core
(format registry, USGS DEM / DTED / ASCII XYZ / LAS-LAZ / Image+WorldFile
decoders, point-cloud grid resampler, slope/aspect surface derivation),
translated from the TypeScript sources under `apps/web/src/geo` and
`apps/web/src/three/modules/TerrainModule.ts`.

Numbers are modelled exactly: JavaScript `number` values become `ℚ`,
integer raw values become `ℤ`/`ℕ`, and NaN is represented by `Option`
(`none` = NaN / non-finite) at the places the code tests `isFinite` /
`isNaN`.  Typed-array writes out of bounds are no-ops, as in JS.
-/

namespace TerraVista

/-- Whitespace characters recognised by the JS `trim` / `\s` model. -/
def isWS (c : Char) : Bool :=
  c = ' ' ∨ c = '\t' ∨ c = '\r' ∨ c = '\n'

/-- JS `String.prototype.trim` on a character list. -/
def jsTrim (l : List Char) : List Char :=
  ((l.dropWhile isWS).reverse.dropWhile isWS).reverse

/-- Split a text into lines at `'\n'` (a preceding `'\r'` is removed by the
subsequent `jsTrim`, matching the source's `split(/\r?\n/)` + `trim`). -/
def splitLines (l : List Char) : List (List Char) :=
  l.splitOn '\n'

/-- Delimiters of the XYZ tokenizer: `split(/[\s,;]+/)`. -/
def isDelim (c : Char) : Bool :=
  c = ',' ∨ c = ';' ∨ isWS c

theorem dropWhile_length_le {α : Type} (p : α → Bool) (l : List α) :
    (l.dropWhile p).length ≤ l.length := by
  induction l with
  | nil => simp [List.dropWhile]
  | cons a t ih =>
    rw [List.dropWhile]
    split
    · exact Nat.le_succ_of_le ih
    · exact Nat.le_refl _

/-- Structural worker for `splitDelims` (the fuel is an upper bound on the
remaining input length, so it never runs out at the call below). -/
def splitDelimsF : ℕ → List Char → List (List Char)
  | 0, _ => [[]]
  | _ + 1, [] => [[]]
  | fuel + 1, c :: rest =>
    if isDelim c then
      [] :: splitDelimsF fuel (rest.dropWhile isDelim)
    else
      match splitDelimsF fuel rest with
      | [] => [[c]]
      | t :: ts => (c :: t) :: ts

/-- JS `split` on a regex matching runs of delimiters: a leading run yields an
empty first token and a trailing run an empty last token. -/
def splitDelims (l : List Char) : List (List Char) :=
  splitDelimsF l.length l

/-- Numeric value of a digit-character list (base 10). -/
def digitsVal (l : List Char) : ℕ :=
  l.foldl (fun a c => 10 * a + (c.toNat - 48)) 0

/-- Model of JS `parseFloat`: longest decimal-literal prefix.  Returns `none`
for NaN and for `Infinity` (every call site filters through `isFinite`, which
rejects both). -/
def jsParseFloat (l : List Char) : Option ℚ :=
  let l₁ := l.dropWhile isWS
  let (sgn, l₂) : ℚ × List Char :=
    match l₁ with
    | '-' :: r => (-1, r)
    | '+' :: r => (1, r)
    | r => (1, r)
  if l₂.take 8 = "Infinity".data then none
  else
    let intPart := l₂.takeWhile Char.isDigit
    let l₃ := l₂.dropWhile Char.isDigit
    let (fracPart, l₄) : List Char × List Char :=
      match l₃ with
      | '.' :: r => (r.takeWhile Char.isDigit, r.dropWhile Char.isDigit)
      | r => ([], r)
    if intPart = [] ∧ fracPart = [] then none
    else
      let mantissa : ℚ :=
        (digitsVal intPart : ℚ) + (digitsVal fracPart : ℚ) / (10 ^ fracPart.length : ℕ)
      let expVal : ℤ :=
        match l₄ with
        | 'e' :: r => jsExpPart r
        | 'E' :: r => jsExpPart r
        | _ => 0
      some (sgn * mantissa * (10 : ℚ) ^ expVal)
where
  /-- Exponent part; an ill-formed exponent is ignored (`parseFloat "1e"` = 1). -/
  jsExpPart (r : List Char) : ℤ :=
    let (es, r₂) : ℤ × List Char :=
      match r with
      | '-' :: t => (-1, t)
      | '+' :: t => (1, t)
      | t => (1, t)
    let ds := r₂.takeWhile Char.isDigit
    if ds = [] then 0 else es * (digitsVal ds : ℤ)

/-- Hex-digit test for the `0x` branch of `parseInt`. -/
def isHexDigit (c : Char) : Bool :=
  c.isDigit ∨ ('a' ≤ c ∧ c ≤ 'f') ∨ ('A' ≤ c ∧ c ≤ 'F')

/-- Value of a hex digit. -/
def hexVal (c : Char) : ℕ :=
  if c.isDigit then c.toNat - 48
  else if 'a' ≤ c ∧ c ≤ 'f' then c.toNat - 87
  else c.toNat - 55

/-- Model of JS `parseInt(s)` (radix unspecified): skips whitespace, optional
sign, `0x`/`0X` switches to hex, parses leading digits, `none` = NaN. -/
def jsParseInt (l : List Char) : Option ℤ :=
  let l₁ := l.dropWhile isWS
  let (sgn, l₂) : ℤ × List Char :=
    match l₁ with
    | '-' :: r => (-1, r)
    | '+' :: r => (1, r)
    | r => (1, r)
  match l₂ with
  | '0' :: 'x' :: r =>
    let ds := r.takeWhile isHexDigit
    if ds = [] then none
    else some (sgn * (ds.foldl (fun a c => 16 * a + hexVal c) 0 : ℕ))
  | '0' :: 'X' :: r =>
    let ds := r.takeWhile isHexDigit
    if ds = [] then none
    else some (sgn * (ds.foldl (fun a c => 16 * a + hexVal c) 0 : ℕ))
  | r =>
    let ds := r.takeWhile Char.isDigit
    if ds = [] then none else some (sgn * (digitsVal ds : ℤ))

/-- Worker for `natCeilSqrt`: linear search for the least `k` with `k² ≥ n`. -/
def natCeilSqrtAux (n : ℕ) : ℕ → ℕ → ℕ
  | 0, k => k
  | fuel + 1, k => if n ≤ k * k then k else natCeilSqrtAux n fuel (k + 1)

/-- `Math.ceil(Math.sqrt n)` for a natural count: the least `k` with
`k² ≥ n` (for every natural `n < 2^52` the double `Math.sqrt` is correctly
rounded inside an interval that preserves the ceiling). -/
def natCeilSqrt (n : ℕ) : ℕ :=
  natCeilSqrtAux n (n + 1) 0

/-- `Math.ceil (a / b)` on naturals. -/
def cdiv (a b : ℕ) : ℕ :=
  (a + b - 1) / b

/-- Typed-array element write: out-of-bounds stores are silently dropped,
exactly as for a JS `TypedArray`. -/
def setN {α : Type} (a : Array α) (i : ℕ) (v : α) : Array α :=
  if h : i < a.size then a.set ⟨i, h⟩ v else a

theorem size_setN {α : Type} (a : Array α) (i : ℕ) (v : α) :
    (setN a i v).size = a.size := by
  unfold setN
  split <;> simp

/-- First-element-seeded fold for JS `min` scans that start from `+Infinity`
(all uses are guarded by nonemptiness of the point list). -/
def jsMinList (l : List ℚ) : ℚ :=
  match l with
  | [] => 0
  | x :: xs => xs.foldl (fun m v => if v < m then v else m) x

/-- Counterpart of `jsMinList` for maxima (seed `-Infinity`). -/
def jsMaxList (l : List ℚ) : ℚ :=
  match l with
  | [] => 0
  | x :: xs => xs.foldl (fun m v => if m < v then v else m) x

/-- Canonical elevation grid (`TerrainData` in `TerrainModule.ts`). -/
structure TerrainData where
  elevations : Array ℚ
  width : ℕ
  height : ℕ
  noDataValue : Option ℚ
deriving Repr, DecidableEq

/-! ### ASCII XYZ decoder (`apps/web/src/geo/loadXyz.ts`) -/

/-- A parsed point of `loadXyzFile`. -/
structure XyzPoint where
  x : ℚ
  y : ℚ
  z : ℚ
deriving Repr, DecidableEq

/-- Line filter of `loadXyzFile`: nonblank, not starting with `#` or `/`. -/
def xyzKeepLine (l : List Char) : Bool :=
  decide (l ≠ []) && l.head? ≠ some '#' && l.head? ≠ some '/'

/-- Parse one kept line into a point: at least three fields, first three
`parseFloat`-finite. -/
def xyzParseLine (l : List Char) : Option XyzPoint :=
  let parts := splitDelims l
  if parts.length < 3 then none
  else
    match jsParseFloat (parts.getD 0 []), jsParseFloat (parts.getD 1 []),
        jsParseFloat (parts.getD 2 []) with
    | some x, some y, some z => some ⟨x, y, z⟩
    | _, _, _ => none

/-- All valid points of an XYZ text, in order. -/
def xyzPoints (text : String) : List XyzPoint :=
  (((splitLines text.data).map jsTrim).filter xyzKeepLine).filterMap xyzParseLine

/-- `loadXyzFile`, from reading the text onward.  Returns the terrain grid or
the thrown error message. -/
def loadXyzFile (text : String) : Except String TerrainData :=
  let points := xyzPoints text
  if points = [] then
    .error "No valid XYZ points found in file"
  else
    let minX := jsMinList (points.map XyzPoint.x)
    let maxX := jsMaxList (points.map XyzPoint.x)
    let minY := jsMinList (points.map XyzPoint.y)
    let maxY := jsMaxList (points.map XyzPoint.y)
    let uniqueX := (points.map XyzPoint.x).dedup.length
    let uniqueY := (points.map XyzPoint.y).dedup.length
    let wh : ℕ × ℕ :=
      if uniqueX > 1 ∧ uniqueY > 1 then (uniqueX, uniqueY)
      else (natCeilSqrt points.length, cdiv points.length (natCeilSqrt points.length))
    let width := wh.1
    let height := wh.2
    let rangeX := if maxX - minX = 0 then 1 else maxX - minX
    let rangeY := if maxY - minY = 0 then 1 else maxY - minY
    let elevations :=
      points.foldl
        (fun a p =>
          let ix := min (((p.x - minX) / rangeX * ((width : ℚ) - 1)).floor.toNat) (width - 1)
          let iy := min (((p.y - minY) / rangeY * ((height : ℚ) - 1)).floor.toNat) (height - 1)
          setN a (iy * width + ix) p.z)
        (Array.mkArray (width * height) (0 : ℚ))
    .ok ⟨elevations, width, height, none⟩

/-! ### USGS DEM decoder (`apps/web/src/components/Viewport.tsx`:
`loadUsgsDemFile` / `parseAsDemText`).  Only the terrain grid is modelled;
the `RasterInfo` metadata (corners, resolution, CRS hint) does not bear on
any claim. -/

/-- One maximal match of `-?\d+\.?\d*` starting at a digit: the token and the
rest of the input. -/
def numTokenAux (l : List Char) : List Char × List Char :=
  let ds := l.takeWhile Char.isDigit
  let r := l.dropWhile Char.isDigit
  match r with
  | '.' :: r₂ => (ds ++ '.' :: r₂.takeWhile Char.isDigit, r₂.dropWhile Char.isDigit)
  | _ => (ds, r)

theorem numTokenAux_rest_le (c : Char) (rest : List Char) (hc : c.isDigit = true) :
    (numTokenAux (c :: rest)).2.length ≤ rest.length := by
  unfold numTokenAux
  simp only [List.dropWhile_cons, hc, if_true]
  have h₁ : (rest.dropWhile Char.isDigit).length ≤ rest.length :=
    dropWhile_length_le _ rest
  split
  · next heq =>
    have h₂ : (‹List Char›).length + 1 ≤ rest.length := by
      rename_i r₂ _
      have := h₁
      rw [heq] at this
      simpa using this
    calc ((‹List Char›).dropWhile Char.isDigit).length
        ≤ (‹List Char›).length := dropWhile_length_le _ _
      _ ≤ rest.length := by omega
  · exact h₁

/-- Global regex scan with pattern `-?\d+\.?\d*`: all maximal numeric tokens
left to right. -/
def scanNumsF : ℕ → List Char → List (List Char)
  | 0, _ => []
  | _ + 1, [] => []
  | fuel + 1, c :: rest =>
    if c.isDigit then
      (numTokenAux (c :: rest)).1 :: scanNumsF fuel (numTokenAux (c :: rest)).2
    else if c = '-' ∧ rest.head?.elim false Char.isDigit = true then
      ('-' :: (numTokenAux rest).1) :: scanNumsF fuel (numTokenAux rest).2
    else scanNumsF fuel rest

/-- The scan, with fuel bounding the input length (`numTokenAux` always
consumes at least the leading digit, so the fuel below suffices). -/
def scanNums (l : List Char) : List (List Char) :=
  scanNumsF l.length l

/-- All parseFloat-finite numeric tokens of the text, per nonblank trimmed
line, as scanned by `parseAsDemText`. -/
def demTextValues (text : String) : List ℚ :=
  (((splitLines text.data).map jsTrim).filter (fun l => l ≠ [])).flatMap
    (fun l => (scanNums l).filterMap jsParseFloat)

/-- `typeA.substring(0, 40).trim()`: the header name field. -/
def demHeaderName (text : String) : List Char :=
  jsTrim ((text.data.take 1024).take 40)

/-- `typeA.substring(853, 859).trim()`: the row-count field. -/
def demRowsField (text : String) : List Char :=
  jsTrim (((text.data.take 1024).take 859).drop 853)

/-- `typeA.substring(859, 865).trim()`: the column-count field. -/
def demColsField (text : String) : List Char :=
  jsTrim (((text.data.take 1024).take 865).drop 859)

/-- `parseAsDemText`: degraded-recovery reshape of all numeric tokens into a
near-square grid. -/
def parseAsDemText (text : String) : Except String TerrainData :=
  let allValues : List ℚ := demTextValues text
  if allValues = [] then
    .error "No elevation values found in DEM file"
  else
    let side := natCeilSqrt allValues.length
    let width := side
    let height := cdiv allValues.length side
    let elevations :=
      (allValues.foldl
        (fun (p : Array ℚ × ℕ) v => (setN p.1 p.2 v, p.2 + 1))
        (Array.mkArray (width * height) (0 : ℚ), 0)).1
    .ok ⟨elevations, width, height, some (-32767)⟩

/-- `loadUsgsDemFile`, from reading the text onward.  Header metadata that
only feeds `RasterInfo` (corners, resolutions, codes) is not modelled. -/
def loadUsgsDemFile (text : String) : Except String TerrainData :=
  if demHeaderName text = [] then
    .error "Invalid USGS DEM: could not read header"
  else
    let numRows : ℤ := (jsParseInt (demRowsField text)).getD 0
    let numCols : ℤ := (jsParseInt (demColsField text)).getD 0
    if numRows = 0 ∨ numCols = 0 then
      parseAsDemText text
    else if numRows < 0 ∨ numCols < 0 then
      -- `new Float32Array(numRows * numCols)` throws for a negative length
      .error "RangeError: invalid typed array length"
    else
      let w := numCols.toNat
      let h := numRows.toNat
      -- `elevations[idx] = parseFloat(val)` without an `isFinite` filter; a
      -- scanner token always parses, so `getD` never supplies its default.
      let values : List ℚ :=
        (scanNums (text.data.drop 1024)).map (fun t => (jsParseFloat t).getD 0)
      let elevations :=
        (values.foldl
          (fun (p : Array ℚ × ℕ) v => (setN p.1 p.2 v, p.2 + 1))
          (Array.mkArray (h * w) (0 : ℚ), 0)).1
      .ok ⟨elevations, w, h, some (-32767)⟩

/-! ### Binary buffers -/

/-- A byte buffer (`Uint8Array` over an `ArrayBuffer`): byte lookup plus a
length.  Indices `≥ len` are never read by the embedded code paths except
where JS itself reads `undefined`s through the same guard structure. -/
structure Buffer where
  data : ℕ → ℕ
  len : ℕ

/-- `bytes.slice a e` as a list of byte values (the uses below are always
in bounds, so no end-clamping is needed beyond `min`). -/
def sliceBytes (b : Buffer) (a e : ℕ) : List ℕ :=
  (List.range (min e b.len - a)).map (fun i => b.data (a + i))

/-- `parseInt(String.fromCharCode(...bytes))`. -/
def parseIntBytes (bs : List ℕ) : Option ℤ :=
  jsParseInt (bs.map Char.ofNat)

/-! ### DTED decoder (`apps/web/src/geo/loadDted.ts`).  Only the terrain
grid is modelled; origin/interval metadata feeds `RasterInfo` alone. -/

/-- Sign-magnitude decode of one 16-bit big-endian DTED sample:
`((hi & 0x7f) << 8) | lo`, negated when `hi & 0x80` is set. -/
def dtedSample (hi lo : ℕ) : ℤ :=
  let mag : ℕ := ((hi &&& 127) <<< 8) ||| lo
  if hi &&& 128 ≠ 0 then -(mag : ℤ) else (mag : ℤ)

/-- Inner row loop of `loadDtedFile` for one column record. -/
def dtedRowFill (b : Buffer) (w h col recordStart : ℕ) (a : Array ℚ) : Array ℚ :=
  (List.range h).foldl
    (fun a row =>
      let byteOffset := recordStart + 8 + row * 2
      let value := dtedSample (b.data byteOffset) (b.data (byteOffset + 1))
      let outRow := h - 1 - row
      setN a (outRow * w + col) (value : ℚ))
    a

/-- Outer column loop of `loadDtedFile`; an out-of-range record `break`s the
whole loop. -/
def dtedColFill (b : Buffer) (w h recordSize : ℕ) : List ℕ → Array ℚ → Array ℚ
  | [], a => a
  | col :: rest, a =>
    if 3428 + col * recordSize + 8 + h * 2 > b.len then a
    else
      dtedColFill b w h recordSize rest
        (dtedRowFill b w h col (3428 + col * recordSize) a)

/-- `loadDtedFile`, from reading the buffer onward. -/
def loadDtedFile (b : Buffer) : Except String TerrainData :=
  if b.len < 3428 + 12 then
    .error "File too small to be a valid DTED file"
  else if ¬(b.data 0 = 85 ∧ b.data 1 = 72 ∧ b.data 2 = 76) then
    -- "UHL" = char codes 85, 72, 76
    .error "Invalid DTED: missing UHL header signature"
  else
    match parseIntBytes (sliceBytes b 47 51), parseIntBytes (sliceBytes b 51 55) with
    | some numLonLines, some numLatPoints =>
      if numLonLines ≤ 0 ∨ numLatPoints ≤ 0 then
        .error "Invalid DTED: could not parse grid dimensions"
      else
        let width := numLonLines.toNat
        let height := numLatPoints.toNat
        let recordSize := 8 + height * 2 + 4
        let elevations :=
          dtedColFill b width height recordSize (List.range width)
            (Array.mkArray (width * height) (-32767 : ℚ))
        .ok ⟨elevations, width, height, some (-32767)⟩
    | _, _ => .error "Invalid DTED: could not parse grid dimensions"

/-! ### LAS/LAZ decoder (`apps/web/src/geo/loadLas.ts`) -/

/-- `DataView.getUint16(off, true)`. -/
def getUint16LE (b : Buffer) (off : ℕ) : ℕ :=
  b.data off + 256 * b.data (off + 1)

/-- `DataView.getUint32(off, true)`. -/
def getUint32LE (b : Buffer) (off : ℕ) : ℕ :=
  b.data off + 256 * b.data (off + 1) + 65536 * b.data (off + 2) +
    16777216 * b.data (off + 3)

/-- `Number(DataView.getBigUint64(off, true))` (values beyond 2^53 would be
rounded by `Number`; such headers are outside the model). -/
def getUint64LE (b : Buffer) (off : ℕ) : ℕ :=
  (List.range 8).foldl (fun a i => a + b.data (off + i) * 256 ^ i) 0

/-- `DataView.getInt32(off, true)`: two's-complement reading of the 32-bit
little-endian word. -/
def getInt32LE (b : Buffer) (off : ℕ) : ℤ :=
  let u := getUint32LE b off % 4294967296
  if u < 2147483648 then (u : ℤ) else (u : ℤ) - 4294967296

/-- `DataView.getFloat64(off, true)`: exact rational value of the IEEE-754
binary64 bit pattern.  NaN/±Infinity patterns (exponent 2047) are outside the
ℚ model and map to 0; no claim depends on header float values. -/
def getFloat64LE (b : Buffer) (off : ℕ) : ℚ :=
  let bits : ℕ := (List.range 8).foldl (fun a i => a + b.data (off + i) % 256 * 256 ^ i) 0
  let sign : ℕ := bits / 2 ^ 63
  let expo : ℕ := bits / 2 ^ 52 % 2 ^ 11
  let frac : ℕ := bits % 2 ^ 52
  let sgn : ℚ := if sign = 1 then -1 else 1
  if expo = 0 then sgn * (frac : ℚ) / 2 ^ 1074
  else if expo = 2047 then 0
  else sgn * ((2 ^ 52 + frac : ℕ) : ℚ) * (2 : ℚ) ^ ((expo : ℤ) - 1075)

/-- Parsed LAS header (`parseLasHeader`). -/
structure LasHeader where
  versionMinor : ℕ
  pointDataRecordFormat : ℕ
  pointDataRecordLength : ℕ
  numberOfPoints : ℕ
  offsetToPointData : ℕ
  scaleX : ℚ
  scaleY : ℚ
  scaleZ : ℚ
  offsetX : ℚ
  offsetY : ℚ
  offsetZ : ℚ
  minX : ℚ
  maxX : ℚ
  minY : ℚ
  maxY : ℚ
  minZ : ℚ
  maxZ : ℚ
  isLaz : Bool
deriving Repr, DecidableEq

/-- Byte values of the VLR user id `"laszip encoded"`. -/
def laszipUserId : List ℕ :=
  "laszip encoded".data.map Char.toNat

/-- VLR scan loop of `parseLasHeader` (first argument of the recursion is the
remaining iteration count `numVLRs - i`). -/
def vlrScan (b : Buffer) (offsetToPointData : ℕ) : ℕ → ℕ → Bool → Bool
  | 0, _, isLaz => isLaz
  | n + 1, vlrOffset, isLaz =>
    if vlrOffset < offsetToPointData then
      if vlrOffset + 54 > b.len then isLaz
      else
        let userId := (sliceBytes b (vlrOffset + 2) (vlrOffset + 18)).filter (· ≠ 0)
        let recordId := getUint16LE b (vlrOffset + 18)
        let recordLength := getUint16LE b (vlrOffset + 20)
        let isLaz₂ := isLaz || decide (userId = laszipUserId) || decide (recordId = 22204)
        vlrScan b offsetToPointData n (vlrOffset + 54 + recordLength) isLaz₂
    else isLaz

/-- `parseLasHeader`.  A buffer too short for a fixed-offset `DataView` read
raises a `RangeError` in JS; those reads are guarded by explicit length
checks here. -/
def parseLasHeader (b : Buffer) : Except String LasHeader :=
  if b.len < 4 then .error "RangeError: DataView read out of bounds"
  else if ¬(b.data 0 = 76 ∧ b.data 1 = 65 ∧ b.data 2 = 83 ∧ b.data 3 = 70) then
    -- "LASF" = char codes 76, 65, 83, 70
    .error "Not a valid LAS/LAZ file (missing LASF signature)"
  else if b.len < 26 then .error "RangeError: DataView read out of bounds"
  else
    let versionMajor := b.data 24
    let versionMinor := b.data 25
    if ¬(versionMajor = 1 ∧ versionMinor ≤ 4) then
      .error ("Unsupported LAS version " ++ toString versionMajor ++ "." ++
        toString versionMinor)
    else if b.len < 227 then .error "RangeError: DataView read out of bounds"
    else if 4 ≤ versionMinor ∧ b.len < 255 then
      .error "RangeError: DataView read out of bounds"
    else
      let offsetToPointData := getUint32LE b 96
      let pointDataRecordFormat := b.data 104
      let pointDataRecordLength := getUint16LE b 105
      let numberOfPoints :=
        if 4 ≤ versionMinor then getUint64LE b 247 else getUint32LE b 107
      let numVLRs := getUint32LE b 100
      let vlrOffset := if 4 ≤ versionMinor then 375 else if 3 ≤ versionMinor then 235 else 227
      let isLaz := vlrScan b offsetToPointData numVLRs vlrOffset false
      .ok
        { versionMinor, pointDataRecordFormat, pointDataRecordLength,
          numberOfPoints, offsetToPointData,
          scaleX := getFloat64LE b 131, scaleY := getFloat64LE b 139,
          scaleZ := getFloat64LE b 147,
          offsetX := getFloat64LE b 155, offsetY := getFloat64LE b 163,
          offsetZ := getFloat64LE b 171,
          maxX := getFloat64LE b 179, minX := getFloat64LE b 187,
          maxY := getFloat64LE b 195, minY := getFloat64LE b 203,
          maxZ := getFloat64LE b 211, minZ := getFloat64LE b 219,
          isLaz }

/-- Scaled point value read at raw index `i` of the uncompressed point data. -/
def decodePointAt (b : Buffer) (hd : LasHeader) (i : ℕ) : XyzPoint :=
  let off := hd.offsetToPointData + i * hd.pointDataRecordLength
  ⟨(getInt32LE b off : ℚ) * hd.scaleX + hd.offsetX,
   (getInt32LE b (off + 4) : ℚ) * hd.scaleY + hd.offsetY,
   (getInt32LE b (off + 8) : ℚ) * hd.scaleZ + hd.offsetZ⟩

/-- Strided extraction loop of `extractPointsUncompressed` (first recursion
argument is fuel; the loop performs at most `numberOfPoints` iterations, so
the fuel passed below never runs out). -/
def uncompLoop (b : Buffer) (hd : LasHeader) (stride count : ℕ) :
    ℕ → ℕ → ℕ → List XyzPoint
  | 0, _, _ => []
  | fuel + 1, i, outIdx =>
    if i < hd.numberOfPoints ∧ outIdx < count then
      if hd.offsetToPointData + i * hd.pointDataRecordLength + 12 > b.len then []
      else
        decodePointAt b hd i ::
          uncompLoop b hd stride count fuel (i + stride) (outIdx + 1)
    else []

/-- `extractPointsUncompressed`. -/
def extractPointsUncompressed (b : Buffer) (hd : LasHeader) : List XyzPoint :=
  let maxPoints := min hd.numberOfPoints 10000000
  let stride :=
    if maxPoints < hd.numberOfPoints then cdiv hd.numberOfPoints maxPoints else 1
  let count := cdiv hd.numberOfPoints stride
  uncompLoop b hd stride count (hd.numberOfPoints + 1) 0 0

/-- The LASzip wasm decompressor (`laz-perf`), abstracted: the point count it
reports and the raw int32 X/Y/Z fields of each sequentially decompressed
point record. -/
structure LazOracle where
  count : ℕ
  point : ℕ → ℤ × ℤ × ℤ

/-- The `raw·scale+offset` transform applied to one decompressed record. -/
def lazDecode (hd : LasHeader) (p : ℤ × ℤ × ℤ) : XyzPoint :=
  ⟨(p.1 : ℚ) * hd.scaleX + hd.offsetX,
   (p.2.1 : ℚ) * hd.scaleY + hd.offsetY,
   (p.2.2 : ℚ) * hd.scaleZ + hd.offsetZ⟩

/-- `extractPointsLaz`, with the decompressor abstracted as `LazOracle`. -/
def extractPointsLaz (oracle : LazOracle) (hd : LasHeader) : List XyzPoint :=
  let maxPoints := min oracle.count 10000000
  let skipStride :=
    if maxPoints < oracle.count then cdiv oracle.count maxPoints else 1
  let outputCount := cdiv oracle.count skipStride
  ((List.range oracle.count).foldl
    (fun (st : ℕ × List XyzPoint) i =>
      if i % skipStride = 0 ∧ st.1 < outputCount then
        (st.1 + 1, st.2 ++ [lazDecode hd (oracle.point i)])
      else st)
    (0, [])).2

/-! ### Point-cloud grid resampler (`pointsToGrid`) -/

/-- `Math.round`: half-up rounding (`⌊x + 1/2⌋` for every finite x). -/
def jsRound (q : ℚ) : ℤ :=
  (q + 1 / 2).floor

/-- Output grid of the resampler.  `width = none` models the NaN width that
JS produces on an empty point set (see `pointsToGrid`). -/
structure LasGrid where
  elevations : Array (Option ℚ)
  width : Option ℕ
  height : ℕ
deriving Repr, DecidableEq

/-- 3×3 neighbourhood sum/count around `(x, y)` over filled (non-NaN) cells,
in the source's `dy`-outer `dx`-inner order. -/
def neighborAvg (w h : ℕ) (a : Array (Option ℚ)) (x y : ℕ) : ℚ × ℕ :=
  ([-1, 0, 1] : List ℤ).foldl
    (fun acc dy =>
      ([-1, 0, 1] : List ℤ).foldl
        (fun acc dx =>
          let nx := (x : ℤ) + dx
          let ny := (y : ℤ) + dy
          if 0 ≤ nx ∧ nx < (w : ℤ) ∧ 0 ≤ ny ∧ ny < (h : ℤ) then
            match a.getD (ny * w + nx).toNat none with
            | some nv => (acc.1 + nv, acc.2 + 1)
            | none => acc
          else acc)
        acc)
    ((0 : ℚ), (0 : ℕ))

/-- One in-place gap-fill pass (row-major, newly filled cells feed later
cells of the same pass); returns the updated cells and the `filled` flag. -/
def fillPass (w h : ℕ) (a₀ : Array (Option ℚ)) : Array (Option ℚ) × Bool :=
  (List.range h).foldl
    (fun st y =>
      (List.range w).foldl
        (fun (st : Array (Option ℚ) × Bool) x =>
          let idx := y * w + x
          match st.1.getD idx none with
          | some _ => st
          | none =>
            let sc := neighborAvg w h st.1 x y
            if 0 < sc.2 then (setN st.1 idx (some (sc.1 / sc.2)), true) else st)
        st)
    (a₀, false)

/-- Final global-mean backfill: `globalAvg` starts at 0 and is divided only
when at least one cell is filled; every still-NaN cell then receives it. -/
def globalFill (a : Array (Option ℚ)) : Array (Option ℚ) :=
  let sc := a.foldl
    (fun (p : ℚ × ℕ) v =>
      match v with
      | some q => (p.1 + q, p.2 + 1)
      | none => p)
    ((0 : ℚ), (0 : ℕ))
  let avg : ℚ := if 0 < sc.2 then sc.1 / sc.2 else 0
  a.map (fun v => match v with | none => some avg | some _ => v)

/-- The `while (passes < 3)` loop (early `break` when a pass fills nothing)
followed by the global-mean backfill. -/
def lasGapFill (w h : ℕ) (a : Array (Option ℚ)) : Array (Option ℚ) :=
  let p1 := fillPass w h a
  if ¬ p1.2 then globalFill p1.1
  else
    let p2 := fillPass w h p1.1
    if ¬ p2.2 then globalFill p2.1
    else globalFill (fillPass w h p2.1).1

/-- `pointsToGrid`.  The empty-input branch is the JS evaluation of the same
code on zero points: `minX = +∞`, `maxX = −∞`, so `rangeX = maxX − minX = −∞`
(kept by `|| 1`, −∞ being truthy), `aspect = −∞/−∞ = NaN`, `aspect >= 1` is
false, `height = gridSize` and `width = Math.max(1, Math.round(gridSize·NaN))
= NaN`; `new Float32Array(NaN · gridSize)` has length 0 and every subsequent
loop bound (`x < NaN`, `i < 0`) is vacuous, so the elevations stay empty. -/
def pointsToGrid (pts : List XyzPoint) (gridSize : ℕ) : LasGrid :=
  match hp : pts with
  | [] => ⟨#[], none, gridSize⟩
  | _ :: _ =>
    let minX := jsMinList (pts.map XyzPoint.x)
    let maxX := jsMaxList (pts.map XyzPoint.x)
    let minY := jsMinList (pts.map XyzPoint.y)
    let maxY := jsMaxList (pts.map XyzPoint.y)
    let rangeX := if maxX - minX = 0 then 1 else maxX - minX
    let rangeY := if maxY - minY = 0 then 1 else maxY - minY
    let aspect := rangeX / rangeY
    let wh : ℕ × ℕ :=
      if 1 ≤ aspect then
        (gridSize, max 1 (jsRound ((gridSize : ℚ) / aspect)).toNat)
      else
        (max 1 (jsRound ((gridSize : ℚ) * aspect)).toNat, gridSize)
    let width := wh.1
    let height := wh.2
    let sc :=
      pts.foldl
        (fun (sc : Array ℚ × Array ℕ) p =>
          let gx := (min ((width : ℤ) - 1)
            (max 0 ((p.x - minX) / rangeX * ((width : ℚ) - 1)).floor)).toNat
          let gy := (min ((height : ℤ) - 1)
            (max 0 ((p.y - minY) / rangeY * ((height : ℚ) - 1)).floor)).toNat
          let idx := gy * width + gx
          (setN sc.1 idx (sc.1.getD idx 0 + p.z),
           setN sc.2 idx (sc.2.getD idx 0 + 1)))
        (Array.mkArray (width * height) (0 : ℚ),
         Array.mkArray (width * height) (0 : ℕ))
    let elevations₀ : Array (Option ℚ) :=
      Array.ofFn (n := width * height)
        (fun i =>
          if 0 < sc.2.getD i 0 then
            some (sc.1.getD i 0 / (sc.2.getD i 0 : ℚ))
          else none)
    ⟨lasGapFill width height elevations₀, some width, height⟩

/-- Density-derived grid resolution of `loadLasFile`:
`Math.max(64, Math.min(512, Math.ceil(Math.sqrt(n / 2))))`.
(`Math.ceil (Math.sqrt (n / 2))` equals the least `k` with `2·k² ≥ n`,
which is `natCeilSqrt (cdiv n 2)`.) -/
def lasGridRes (n : ℕ) : ℕ :=
  max 64 (min 512 (natCeilSqrt (cdiv n 2)))

/-- `loadLasFile`, from reading the buffer onward (LAZ decompression through
the oracle).  Only the terrain grid is modelled. -/
def loadLasFile (b : Buffer) (oracle : LazOracle) : Except String LasGrid :=
  match parseLasHeader b with
  | .error e => .error e
  | .ok header =>
    if header.numberOfPoints = 0 then
      .error "LAS/LAZ file contains no points"
    else
      let pts :=
        if header.isLaz then extractPointsLaz oracle header
        else extractPointsUncompressed b header
      .ok (pointsToGrid pts (lasGridRes pts.length))

/-! ### Image + world file decoder (`loadWorldFile.ts`).  Image decode and
canvas raster access are browser primitives, abstracted as an oracle; the
world-file sidecar only feeds `RasterInfo` origin metadata. -/

/-- `createImageBitmap` + `OffscreenCanvas.getImageData`, abstracted: bitmap
dimensions, whether a 2d context was obtainable, and the RGB bytes at each
pixel index. -/
structure ImageOracle where
  width : ℕ
  height : ℕ
  ctxOk : Bool
  pixel : ℕ → ℕ × ℕ × ℕ

/-- `loadImageWithWorldFile`, luminance-surrogate grid construction.  The
float literals 0.299/0.587/0.114 are modelled by the exact decimals they
denote. -/
def loadImageWithWorldFile (img : ImageOracle) : Except String TerrainData :=
  if ¬ img.ctxOk then .error "Failed to create canvas context"
  else
    let elevations : Array ℚ :=
      Array.ofFn (n := img.width * img.height)
        (fun i =>
          let p := img.pixel i
          (299 * p.1 + 587 * p.2.1 + 114 * p.2.2 : ℚ) / 1000)
    .ok ⟨elevations, img.width, img.height, none⟩

/-! ### Format registry and dispatcher (`formats.ts`, `loader.ts`) -/

/-- `FormatInfo` of `formats.ts` (the id is kept as a string tag). -/
structure FormatInfo where
  id : String
  name : String
  extensions : List String
  supported : Bool
  description : String
deriving Repr, DecidableEq

/-- The `FORMATS` table. -/
def FORMATS : List FormatInfo :=
  [⟨"geotiff", "GeoTIFF", [".tif", ".tiff"], true, "Industry standard georeferenced raster"⟩,
   ⟨"cog", "Cloud Optimized GeoTIFF", [".cog"], true, "Streamable GeoTIFF for cloud hosting"⟩,
   ⟨"erdas", "ERDAS Imagine", [".img"], true, "Remote sensing raster format"⟩,
   ⟨"xyz", "ASCII XYZ", [".xyz"], true, "Simple text elevation grid (X Y Z)"⟩,
   ⟨"usgsdem", "USGS DEM", [".dem"], true, "USGS digital elevation model"⟩,
   ⟨"dted", "DTED", [".dt0", ".dt1", ".dt2"], true, "Digital Terrain Elevation Data"⟩,
   ⟨"netcdf", "NetCDF", [".nc"], true, "Scientific multidimensional arrays"⟩,
   ⟨"worldfile", "Image + World File", [".jpg", ".jpeg", ".png", ".bmp", ".gif"], true,
     "Standard image with georeferencing sidecar"⟩,
   ⟨"las", "LAS/LAZ", [".las", ".laz"], true, "LiDAR point cloud (gridded to DEM)"⟩,
   ⟨"jp2", "JPEG 2000", [".jp2", ".jpx"], false, "Lossless compression with geospatial metadata"⟩,
   ⟨"gpkg", "GeoPackage", [".gpkg"], false, "SQLite-based vector/raster container"⟩,
   ⟨"ecw", "ECW", [".ecw"], false, "Enhanced Compression Wavelet (proprietary)"⟩,
   ⟨"mrsid", "MrSID", [".sid"], false, "LizardTech multi-resolution (proprietary)"⟩,
   ⟨"hdf", "HDF", [".hdf", ".hdf5", ".he5", ".h5"], false, "Hierarchical Data Format (NASA)"⟩]

/-- The fallback descriptor for an unrecognized extension. -/
def unknownFormat : FormatInfo :=
  ⟨"unknown", "Unknown", [], false, "Unrecognized format"⟩

/-- `detectFormat`: first table entry one of whose extensions is a suffix of
the lower-cased file name. -/
def detectFormat (fileName : String) : FormatInfo :=
  let lower := fileName.toLower
  match FORMATS.find? (fun f => f.extensions.any (fun e => e.data.isSuffixOf lower.data)) with
  | some f => f
  | none => unknownFormat

/-- Which decoder the `loadRasterFile` switch dispatches to (the three
GeoTIFF-family ids share one dynamic import). -/
inductive DecoderCall where
  | geotiff
  | xyz
  | usgsdem
  | dted
  | netcdf
  | worldfile
deriving Repr, DecidableEq

/-- `file.name.split(".").pop()`. -/
def fileExtTail (name : String) : String :=
  (name.splitOn ".").getLastD ""

/-- The unsupported-format error message of `loadRasterFile`. -/
def unsupportedMsg (fmt : FormatInfo) (fileName : String) : String :=
  fmt.name ++ " (" ++ fileExtTail fileName ++
    ") is a recognized GIS format but cannot be opened in the browser. " ++
    fmt.description ++ ". Try converting to GeoTIFF using GDAL or QGIS."

/-- `loadRasterFile` dispatch: `.ok d` means decoder `d` is invoked on the
file; `.error` means the function throws before any decoder runs. -/
def loadRasterFile (fileName : String) : Except String DecoderCall :=
  let format := detectFormat fileName
  if ¬ format.supported then .error (unsupportedMsg format fileName)
  else
    match format.id with
    | "geotiff" => .ok .geotiff
    | "cog" => .ok .geotiff
    | "erdas" => .ok .geotiff
    | "xyz" => .ok .xyz
    | "usgsdem" => .ok .usgsdem
    | "dted" => .ok .dted
    | "netcdf" => .ok .netcdf
    | "worldfile" => .ok .worldfile
    | _ => .error ("Unsupported format: " ++ fileName)

/-- `s` contains `t` as a substring. -/
def containsSubstr (s t : String) : Prop :=
  ∃ a c, s = a ++ t ++ c

/-! ### Surface derivation (`TerrainModule.renderSlopeAspect`).  The
transcendental `Math` primitives are abstracted as parameters; every
arithmetic step around them is embedded exactly. -/

/-- Abstracted `Math.atan`, `Math.sqrt`, `Math.atan2` and `Math.PI`. -/
structure MathPrims where
  atan : ℚ → ℚ
  sqrt : ℚ → ℚ
  atan2 : ℚ → ℚ → ℚ
  pi : ℚ

/-- JS `%` (remainder with the dividend's sign): `x - y·truncate(x/y)`. -/
def jsFmod (x y : ℚ) : ℚ :=
  x - y * ((x / y).floor + if x / y < 0 ∧ (x / y).floor < x / y then 1 else 0)

/-- `hslToRgb` of `TerrainModule.ts`. -/
def hslToRgb (h s l : ℚ) : ℤ × ℤ × ℤ :=
  let hue2rgb : ℚ → ℚ → ℚ → ℚ := fun p q t₀ =>
    let t₁ := if t₀ < 0 then t₀ + 1 else t₀
    let t := if t₁ > 1 then t₁ - 1 else t₁
    if t < 1 / 6 then p + (q - p) * 6 * t
    else if t < 1 / 2 then q
    else if t < 2 / 3 then p + (q - p) * (2 / 3 - t) * 6
    else p
  let rgb : ℚ × ℚ × ℚ :=
    if s = 0 then (l, l, l)
    else
      let q := if l < 1 / 2 then l * (1 + s) else l + s - l * s
      let p := 2 * l - q
      (hue2rgb p q (h + 1 / 3), hue2rgb p q h, hue2rgb p q (h - 1 / 3))
  (jsRound (rgb.1 * 255), jsRound (rgb.2.1 * 255), jsRound (rgb.2.2 * 255))

/-- `getElevAt`: edge-clamped elevation lookup with no-data/minElev
substitution (`isFinite` is vacuous over ℚ). -/
def getElevAt (data : TerrainData) (minElev : ℚ) (x y : ℤ) : ℚ :=
  let cx := max 0 (min ((data.width : ℤ) - 1) x)
  let cy := max 0 (min ((data.height : ℤ) - 1) y)
  let v := data.elevations.getD (cy * data.width + cx).toNat 0
  match data.noDataValue with
  | some nd => if v = nd then minElev else v
  | none => v

/-- The mutable state of `renderSlopeAspect`: the current grid, the cached
`minElev`, and the output RGBA byte buffer it writes into. -/
structure SAState where
  data : TerrainData
  minElev : ℚ
  pixels : Array ℤ
deriving Repr, DecidableEq

/-- A `pixels[i] = v` store (`Uint8Array` wraps to the low byte). -/
def writePix (st : SAState) (i : ℕ) (v : ℤ) : SAState :=
  { st with pixels := setN st.pixels i (v % 256) }

/-- One texel of `renderSlopeAspect` (Horn's method, then the aspect hue
wheel or the slope grayscale ramp). -/
def renderTexel (pr : MathPrims) (texW texH : ℕ) (isAspect : Bool)
    (st : SAState) (tx ty : ℕ) : SAState :=
  let sx := ((tx : ℚ) / (texW : ℚ) * (st.data.width : ℚ)).floor
  let sy := ((ty : ℚ) / (texH : ℚ) * (st.data.height : ℚ)).floor
  let texIdx := (ty * texW + tx) * 4
  let z1 := getElevAt st.data st.minElev (sx - 1) (sy - 1)
  let z2 := getElevAt st.data st.minElev sx (sy - 1)
  let z3 := getElevAt st.data st.minElev (sx + 1) (sy - 1)
  let z4 := getElevAt st.data st.minElev (sx - 1) sy
  let z6 := getElevAt st.data st.minElev (sx + 1) sy
  let z7 := getElevAt st.data st.minElev (sx - 1) (sy + 1)
  let z8 := getElevAt st.data st.minElev sx (sy + 1)
  let z9 := getElevAt st.data st.minElev (sx + 1) (sy + 1)
  let dzdx := ((z3 + 2 * z6 + z9) - (z1 + 2 * z4 + z7)) / 8
  let dzdy := ((z7 + 2 * z8 + z9) - (z1 + 2 * z2 + z3)) / 8
  let slopeRad := pr.atan (pr.sqrt (dzdx * dzdx + dzdy * dzdy))
  let st :=
    if isAspect then
      if slopeRad < 1 / 100 then
        writePix (writePix (writePix st texIdx 180) (texIdx + 1) 180) (texIdx + 2) 180
      else
        let aspectDeg := jsFmod (pr.atan2 (-dzdy) dzdx * 180 / pr.pi + 360) 360
        let hue := aspectDeg / 360
        let rgb := hslToRgb hue (7 / 10) (55 / 100)
        writePix (writePix (writePix st texIdx rgb.1) (texIdx + 1) rgb.2.1)
          (texIdx + 2) rgb.2.2
    else
      let slopeDeg := slopeRad * 180 / pr.pi
      let t := min 1 (slopeDeg / 60)
      let v := (255 * (1 - t * (85 / 100)) : ℚ).floor
      writePix (writePix (writePix st texIdx v) (texIdx + 1) v) (texIdx + 2) v
  writePix st (texIdx + 3) 255

/-- `renderSlopeAspect`: the full texel double loop, threading the state. -/
def renderSlopeAspect (pr : MathPrims) (texW texH : ℕ) (isAspect : Bool)
    (st : SAState) : SAState :=
  (List.range texH).foldl
    (fun st ty =>
      (List.range texW).foldl (fun st tx => renderTexel pr texW texH isAspect st tx ty) st)
    st

/-! ### General array lemmas -/

theorem getD_setN_eq {α : Type} (a : Array α) (i : ℕ) (v d : α) (h : i < a.size) :
    (setN a i v).getD i d = v := by
  unfold setN
  rw [dif_pos h]
  unfold Array.getD
  rw [dif_pos (by simpa using h)]
  simp

theorem getD_setN_ne {α : Type} (a : Array α) (i j : ℕ) (v d : α) (h : i ≠ j) :
    (setN a i v).getD j d = a.getD j d := by
  unfold setN
  split
  · unfold Array.getD
    rcases Nat.lt_or_ge j a.size with hj | hj
    · rw [dif_pos (by simpa using hj), dif_pos hj]
      simp [Array.get_set, h, Ne.symm h]
    · rw [dif_neg (by simpa using Nat.not_lt.mpr hj), dif_neg (Nat.not_lt.mpr hj)]
  · rfl

theorem foldl_size_inv {α β : Type} (f : Array α → β → Array α)
    (h : ∀ a x, (f a x).size = a.size) :
    ∀ (l : List β) (a : Array α), (l.foldl f a).size = a.size := by
  intro l
  induction l with
  | nil => intro a; rfl
  | cons x t ih => intro a; rw [List.foldl_cons, ih, h]

/-! ### Claim theorems -/

/-- **C8.** Decoding the exact ASCII XYZ input
`"1 1 10\n2 1 20\n1 2 30\n2 2 40"` yields a 2×2 grid whose four elevations
sit at the corners matching their points' relative X/Y positions in the
bounding box: row-major `#[10, 20, 30, 40]` places 10 at (minX,minY),
20 at (maxX,minY), 30 at (minX,maxY) and 40 at (maxX,maxY). -/
theorem xyz_concrete_example :
    loadXyzFile "1 1 10\n2 1 20\n1 2 30\n2 2 40" =
      Except.ok ⟨#[10, 20, 30, 40], 2, 2, none⟩ := by
  with_unfolding_all rfl

/-- **C7.** The ASCII XYZ decoder throws if and only if zero valid `X Y Z`
triples parse: decoding fails exactly when every kept line (nonblank, not
starting with `#` or `/`) fails to yield three parseFloat-finite leading
fields. -/
theorem xyz_error_iff_no_triples (text : String) :
    (loadXyzFile text).isOk = false ↔
      ∀ l ∈ ((splitLines text.data).map jsTrim).filter xyzKeepLine,
        xyzParseLine l = none := by
  unfold loadXyzFile
  constructor
  · intro h
    by_cases hp : xyzPoints text = []
    · intro l hl
      by_contra hne
      have : ∃ p, xyzParseLine l = some p := by
        cases hx : xyzParseLine l with
        | none => exact absurd hx hne
        | some p => exact ⟨p, rfl⟩
      obtain ⟨p, hp2⟩ := this
      have : p ∈ xyzPoints text := by
        unfold xyzPoints
        exact List.mem_filterMap.mpr ⟨l, hl, hp2⟩
      rw [hp] at this
      exact absurd this (List.not_mem_nil p)
    · rw [if_neg hp] at h
      simp [Except.isOk, Except.toBool] at h
  · intro h
    have hp : xyzPoints text = [] := by
      unfold xyzPoints
      exact List.filterMap_eq_nil_iff.mpr h
    rw [if_pos hp]
    rfl

theorem detectFormat_mem (fileName : String) :
    detectFormat fileName ∈ FORMATS ∨ detectFormat fileName = unknownFormat := by
  unfold detectFormat
  dsimp only
  split
  · rename_i f hf
    exact Or.inl (List.mem_of_find?_eq_some hf)
  · exact Or.inr rfl

theorem formats_description_ne (f : FormatInfo)
    (h : f ∈ FORMATS ∨ f = unknownFormat) : f.description ≠ "" := by
  rcases h with h | h
  · have : FORMATS.all (fun f => f.description ≠ "") = true := by decide
    have := (List.all_eq_true.mp this) f h
    simpa using this
  · subst h; decide

/-- **C5.** For every filename whose detected format is flagged
`supported := false`, the dispatcher raises (never reaching the decoder
switch) the unsupported-format error, whose message contains the format's
guidance text, and that guidance text is nonempty. -/
theorem unsupported_never_dispatched (fileName : String)
    (h : (detectFormat fileName).supported = false) :
    loadRasterFile fileName =
        Except.error (unsupportedMsg (detectFormat fileName) fileName) ∧
      containsSubstr (unsupportedMsg (detectFormat fileName) fileName)
        (detectFormat fileName).description ∧
      (detectFormat fileName).description ≠ "" := by
  refine ⟨?_, ?_, formats_description_ne _ (detectFormat_mem fileName)⟩
  · unfold loadRasterFile
    rw [if_pos]
    simp [h]
  · refine ⟨(detectFormat fileName).name ++ " (" ++ fileExtTail fileName ++
      ") is a recognized GIS format but cannot be opened in the browser. ",
      ". Try converting to GeoTIFF using GDAL or QGIS.", ?_⟩
    unfold unsupportedMsg
    simp [String.append_assoc]

/-- **C5 witness.** `"x.ecw"` detects as the unsupported ECW format and the
dispatcher errors with its guidance text embedded in the message. -/
theorem unsupported_never_dispatched_witness :
    (detectFormat "x.ecw").supported = false ∧
      (loadRasterFile "x.ecw" =
          Except.error (unsupportedMsg (detectFormat "x.ecw") "x.ecw") ∧
        containsSubstr (unsupportedMsg (detectFormat "x.ecw") "x.ecw")
          (detectFormat "x.ecw").description ∧
        (detectFormat "x.ecw").description ≠ "") :=
  ⟨by with_unfolding_all rfl,
   unsupported_never_dispatched "x.ecw" (by with_unfolding_all rfl)⟩

theorem renderTexel_data (pr : MathPrims) (texW texH : ℕ) (isAspect : Bool)
    (st : SAState) (tx ty : ℕ) :
    (renderTexel pr texW texH isAspect st tx ty).data = st.data ∧
      (renderTexel pr texW texH isAspect st tx ty).minElev = st.minElev := by
  unfold renderTexel
  simp only [writePix, apply_ite SAState.data, apply_ite SAState.minElev]
  constructor <;> (split <;> first | rfl | (split <;> rfl))

theorem foldl_state_pres {β : Type} (f : SAState → β → SAState)
    (hf : ∀ s x, (f s x).data = s.data ∧ (f s x).minElev = s.minElev) :
    ∀ (l : List β) (st : SAState),
      (l.foldl f st).data = st.data ∧ (l.foldl f st).minElev = st.minElev := by
  intro l
  induction l with
  | nil => intro st; exact ⟨rfl, rfl⟩
  | cons x t ih =>
    intro st
    have h₁ := hf st x
    have h₂ := ih (f st x)
    exact ⟨h₂.1.trans h₁.1, h₂.2.trans h₁.2⟩

theorem renderSlopeAspect_pres (pr : MathPrims) (texW texH : ℕ) (isAspect : Bool)
    (st : SAState) :
    (renderSlopeAspect pr texW texH isAspect st).data = st.data ∧
      (renderSlopeAspect pr texW texH isAspect st).minElev = st.minElev := by
  unfold renderSlopeAspect
  exact foldl_state_pres _
    (fun s ty =>
      foldl_state_pres _ (fun s₂ tx => renderTexel_data pr texW texH isAspect s₂ tx ty)
        (List.range texW) s)
    (List.range texH) st

/-- **C9.** Surface derivation never mutates the source grid (the grid and
cached `minElev` of the state are unchanged), and it is deterministic: a
second invocation on the grid left by the first call, with the same
parameters and the same fresh pixel buffer, produces bit-identical output. -/
theorem deriveSurface_pure_deterministic (pr : MathPrims) (texW texH : ℕ)
    (isAspect : Bool) (st : SAState) :
    (renderSlopeAspect pr texW texH isAspect st).data = st.data ∧
      (renderSlopeAspect pr texW texH isAspect st).minElev = st.minElev ∧
      renderSlopeAspect pr texW texH isAspect
          { data := (renderSlopeAspect pr texW texH isAspect st).data,
            minElev := (renderSlopeAspect pr texW texH isAspect st).minElev,
            pixels := st.pixels } =
        renderSlopeAspect pr texW texH isAspect st := by
  obtain ⟨h₁, h₂⟩ := renderSlopeAspect_pres pr texW texH isAspect st
  refine ⟨h₁, h₂, ?_⟩
  rw [h₁, h₂]

theorem getD_eq_get {α : Type} (a : Array α) (i : ℕ) (d : α) (h : i < a.size) :
    a.getD i d = a[i] := by
  unfold Array.getD
  rw [dif_pos h]
  rfl

theorem globalFill_isSome (a : Array (Option ℚ)) (i : ℕ)
    (h : i < (globalFill a).size) :
    ((globalFill a).getD i none).isSome = true := by
  have hsz : i < a.size := by
    unfold globalFill at h
    simpa using h
  rw [getD_eq_get _ _ _ h]
  unfold globalFill at h ⊢
  dsimp only at h ⊢
  rw [Array.getElem_map]
  rcases a[i] with _ | q <;> rfl

theorem lasGapFill_isSome (w h : ℕ) (a : Array (Option ℚ)) (i : ℕ)
    (hi : i < (lasGapFill w h a).size) :
    ((lasGapFill w h a).getD i none).isSome = true := by
  unfold lasGapFill at hi ⊢
  dsimp only at hi ⊢
  by_cases h1 : ¬ (fillPass w h a).2 = true
  · rw [if_pos h1] at hi ⊢
    exact globalFill_isSome _ _ hi
  · rw [if_neg h1] at hi ⊢
    by_cases h2 : ¬ (fillPass w h (fillPass w h a).1).2 = true
    · rw [if_pos h2] at hi ⊢
      exact globalFill_isSome _ _ hi
    · rw [if_neg h2] at hi ⊢
      exact globalFill_isSome _ _ hi

/-- **C3.** For every nonempty list of (finite, ℚ-valued) points, the grid
resampler returns a grid with no NaN/unfilled cell: binning, then up to three
3×3 averaging passes, then the global-mean backfill leave every cell filled. -/
theorem resampler_no_unfilled (pts : List XyzPoint) (gridSize : ℕ)
    (h : pts ≠ []) :
    ∀ i < (pointsToGrid pts gridSize).elevations.size,
      (((pointsToGrid pts gridSize).elevations.getD i none)).isSome = true := by
  intro i hi
  cases pts with
  | nil => exact absurd rfl h
  | cons p t =>
    unfold pointsToGrid at hi ⊢
    exact lasGapFill_isSome _ _ _ i hi

/-- **C3 witness.** One point on a 1×1 grid: the single cell is filled. -/
theorem resampler_no_unfilled_witness :
    ([⟨0, 0, 5⟩] : List XyzPoint) ≠ [] ∧
      0 < (pointsToGrid [⟨0, 0, 5⟩] 1).elevations.size ∧
      (((pointsToGrid [⟨0, 0, 5⟩] 1).elevations.getD 0 none)).isSome = true :=
  ⟨by simp, by with_unfolding_all decide,
   resampler_no_unfilled [⟨0, 0, 5⟩] 1 (by simp) 0 (by with_unfolding_all decide)⟩

/-- A LAS buffer whose header passes validation (LASF, version 1.2, five
points) but whose `offsetToPointData` (16777216) lies beyond the buffer end,
so point extraction breaks immediately and returns zero points. -/
def lasDimCexBuf : Buffer where
  data := fun i =>
    if i = 0 then 76 else if i = 1 then 65 else if i = 2 then 83
    else if i = 3 then 70
    else if i = 24 then 1 else if i = 25 then 2
    else if i = 99 then 1
    else if i = 105 then 20
    else if i = 107 then 5
    else 0
  len := 227

/-- An inert decompressor stand-in (the counterexample file is not LAZ, so it
is never consulted). -/
def lasNoLazOracle : LazOracle where
  count := 0
  point := fun _ => (0, 0, 0)

/-- The grid-shape invariant `elevations.length = width · height` of claim
C1, for the LAS result type (`width = none` is the NaN width, for which the
JS comparison `0 === NaN·height` is false). -/
def lasSizeOk (g : LasGrid) : Prop :=
  ∃ w, g.width = some w ∧ g.elevations.size = w * g.height

/-- **C1.** Counterexample to the size invariant on the LAS path: a
header-valid buffer whose point data lies beyond the buffer end decodes
"successfully" to a grid with zero elevations but NaN width (`Infinity`
arithmetic on the empty point set), so `elevations.length = width·height`
fails.  The other four decoders are not at issue; this input refutes the
universal claim. -/
theorem las_nan_width_size_bug :
    loadLasFile lasDimCexBuf lasNoLazOracle =
        Except.ok ⟨#[], none, 64⟩ ∧
      ¬ lasSizeOk ⟨#[], none, 64⟩ := by
  constructor
  · with_unfolding_all rfl
  · rintro ⟨w, hw, -⟩
    simp at hw

theorem shiftLeft_lor_eq_add : ∀ (n a b : ℕ), b < 2 ^ n → (a <<< n) ||| b = a <<< n + b := by
  intro n
  induction n with
  | zero =>
    intro a b hb
    have : b = 0 := by omega
    subst this
    simp
  | succ n ih =>
    intro a b hb
    have hb2 : b >>> 1 < 2 ^ n := by
      rw [Nat.shiftRight_one]
      have h2 : 2 ^ (n + 1) = 2 * 2 ^ n := by ring
      rw [h2] at hb
      exact Nat.div_lt_of_lt_mul hb
    have hsh : a <<< (n + 1) = 2 * (a <<< n) := by
      rw [Nat.shiftLeft_eq, Nat.shiftLeft_eq, pow_succ]
      ring
    have hbdec : 2 * (b >>> 1) + (b.testBit 0).toNat = b := by
      have h := Nat.bit_testBit_zero_shiftRight_one b
      rw [Nat.bit_val] at h
      exact h
    calc (a <<< (n + 1)) ||| b
        = (Nat.bit false (a <<< n)) ||| (Nat.bit (b.testBit 0) (b >>> 1)) := by
          rw [Nat.bit_testBit_zero_shiftRight_one b, hsh]
          congr 1
      _ = Nat.bit (false || b.testBit 0) ((a <<< n) ||| (b >>> 1)) := Nat.lor_bit _ _ _ _
      _ = Nat.bit (b.testBit 0) (a <<< n + b >>> 1) := by rw [ih _ _ hb2]; simp
      _ = a <<< (n + 1) + b := by
          rw [Nat.bit_val]
          omega

theorem testBit7_of_lt (hi : ℕ) (h : hi < 256) :
    hi.testBit 7 = decide (128 ≤ hi) := by
  rw [Nat.testBit_to_div_mod]
  simp only [decide_eq_decide]
  norm_num
  omega

theorem dtedSample_eq (hi lo : ℕ) (h2 : hi < 256) (h3 : lo < 256) :
    dtedSample hi lo = if 128 ≤ hi then -(((hi - 128) * 256 + lo : ℕ) : ℤ)
      else ((hi * 256 + lo : ℕ) : ℤ) := by
  unfold dtedSample
  have hand : hi &&& 127 = hi % 128 := Nat.and_pow_two_sub_one_eq_mod hi 7
  have hmag : ((hi &&& 127) <<< 8) ||| lo = (hi % 128) * 256 + lo := by
    rw [shiftLeft_lor_eq_add 8 _ lo (by norm_num [h3]), hand, Nat.shiftLeft_eq]
  have hs : hi &&& 128 = if 128 ≤ hi then 128 else 0 := by
    have h7 := Nat.and_two_pow hi 7
    rw [testBit7_of_lt hi h2] at h7
    norm_num at h7
    rcases Nat.lt_or_ge hi 128 with h1 | h1
    · rw [if_neg (by omega)]
      rw [h7]
      simp [Nat.not_le.mpr h1]
    · rw [if_pos h1]
      rw [h7]
      simp [h1]
  rw [hmag, hs]
  rcases Nat.lt_or_ge hi 128 with h1 | h1
  · have hn : ¬ (128 ≤ hi) := Nat.not_le.mpr h1
    simp [hn, Nat.mod_eq_of_lt h1]
  · have hm : hi % 128 = hi - 128 := by omega
    simp [h1, hm]

theorem cell_index_lt (w h q col : ℕ) (hq : q < h) (hcol : col < w) :
    q * w + col < w * h := by
  have h1 : (q + 1) * w ≤ h * w := Nat.mul_le_mul_right w (by omega)
  rw [add_mul, one_mul] at h1
  have h2 : h * w = w * h := Nat.mul_comm h w
  omega

theorem rowFill_foldl_ne (b : Buffer) (w h col recordStart I : ℕ)
    (l : List ℕ) (a : Array ℚ)
    (hI : ∀ row ∈ l, I ≠ (h - 1 - row) * w + col) :
    (l.foldl
      (fun a row =>
        let byteOffset := recordStart + 8 + row * 2
        let value := dtedSample (b.data byteOffset) (b.data (byteOffset + 1))
        let outRow := h - 1 - row
        setN a (outRow * w + col) (value : ℚ))
      a).getD I 0 = a.getD I 0 := by
  induction l generalizing a with
  | nil => rfl
  | cons r t ih =>
    rw [List.foldl_cons]
    rw [ih _ (fun row hr => hI row (List.mem_cons_of_mem _ hr))]
    exact getD_setN_ne _ _ _ _ _ (Ne.symm (hI r (List.mem_cons_self r t)))

theorem rowFill_foldl_eq (b : Buffer) (w h col recordStart : ℕ) (r : ℕ)
    (hr : r < h) (hcol : col < w) :
    ∀ (l : List ℕ) (a : Array ℚ), a.size = w * h → l.Nodup → r ∈ l →
      (∀ row ∈ l, row < h) →
      (l.foldl
        (fun a row =>
          let byteOffset := recordStart + 8 + row * 2
          let value := dtedSample (b.data byteOffset) (b.data (byteOffset + 1))
          let outRow := h - 1 - row
          setN a (outRow * w + col) (value : ℚ))
        a).getD ((h - 1 - r) * w + col) 0 =
        ((dtedSample (b.data (recordStart + 8 + r * 2))
          (b.data (recordStart + 8 + r * 2 + 1)) : ℤ) : ℚ) := by
  intro l
  induction l with
  | nil => intro a _ _ hmem _; cases hmem
  | cons x t ih =>
    intro a hsize hnd hmem hlt
    rw [List.foldl_cons]
    rcases List.mem_cons.mp hmem with heq | hmem2
    · subst heq
      rw [rowFill_foldl_ne]
      · exact getD_setN_eq _ _ _ _
          (by rw [hsize]; exact cell_index_lt w h _ col (by omega) hcol)
      · intro row hrow heq2
        have hxr : row ≠ r := by
          intro he
          subst he
          exact (List.nodup_cons.mp hnd).1 hrow
        have hrowh : row < h := hlt row (List.mem_cons_of_mem _ hrow)
        have hw : 0 < w := by omega
        have h₅ : (h - 1 - r) * w = (h - 1 - row) * w := by omega
        have h₆ : h - 1 - r = h - 1 - row := Nat.eq_of_mul_eq_mul_right hw h₅
        omega
    · have hxr : x ≠ r := by
        intro he
        subst he
        exact (List.nodup_cons.mp hnd).1 hmem2
      exact ih _ (by dsimp only; rw [size_setN, hsize])
        (List.nodup_cons.mp hnd).2 hmem2
        (fun row hrow => hlt row (List.mem_cons_of_mem _ hrow))

theorem size_dtedRowFill (b : Buffer) (w h col recordStart : ℕ) (a : Array ℚ) :
    (dtedRowFill b w h col recordStart a).size = a.size := by
  unfold dtedRowFill
  exact foldl_size_inv _ (fun a x => by dsimp only; rw [size_setN]) _ _

theorem size_dtedColFill (b : Buffer) (w h recordSize : ℕ) :
    ∀ (cols : List ℕ) (a : Array ℚ),
      (dtedColFill b w h recordSize cols a).size = a.size := by
  intro cols
  induction cols with
  | nil => intro a; rfl
  | cons col t ih =>
    intro a
    unfold dtedColFill
    split
    · rfl
    · rw [ih, size_dtedRowFill]

/-- The column loop leaves every cell of column `c` untouched when any
attempt to reach column `c` hits the record-overrun `break` first. -/
theorem colFill_getD_skip (b : Buffer) (w h recordSize c I : ℕ)
    (hI : I % w = c) (hcw : c < w) :
    ∀ (cols : List ℕ) (a : Array ℚ), (∀ col ∈ cols, col < w) →
      (∀ col ∈ cols, col = c → 3428 + col * recordSize + 8 + h * 2 > b.len) →
      (dtedColFill b w h recordSize cols a).getD I 0 = a.getD I 0 := by
  intro cols
  induction cols with
  | nil => intro a _ _; rfl
  | cons col t ih =>
    intro a hlt hover
    unfold dtedColFill
    split
    · rfl
    · rename_i hin
      rw [ih _ (fun x hx => hlt x (List.mem_cons_of_mem _ hx))
        (fun x hx => hover x (List.mem_cons_of_mem _ hx))]
      have hcol : col ≠ c := by
        intro he
        exact hin (hover col (List.mem_cons_self col t) he)
      unfold dtedRowFill
      apply rowFill_foldl_ne
      intro row hrow heq
      have hmod : ((h - 1 - row) * w + col) % w = col := by
        rw [Nat.add_comm, Nat.add_mul_mod_self_right]
        exact Nat.mod_eq_of_lt (hlt col (List.mem_cons_self col t))
      rw [heq, hmod] at hI
      exact hcol hI

theorem colFill_append (b : Buffer) (w h recordSize : ℕ) (l₁ l₂ : List ℕ) :
    ∀ (a : Array ℚ),
      (∀ col ∈ l₁, 3428 + col * recordSize + 8 + h * 2 ≤ b.len) →
      dtedColFill b w h recordSize (l₁ ++ l₂) a =
        dtedColFill b w h recordSize l₂ (dtedColFill b w h recordSize l₁ a) := by
  induction l₁ with
  | nil => intro a _; rfl
  | cons col t ih =>
    intro a hin
    have hle : 3428 + col * recordSize + 8 + h * 2 ≤ b.len :=
      hin col (List.mem_cons_self col t)
    have hred : dtedColFill b w h recordSize (col :: (t ++ l₂)) a =
        dtedColFill b w h recordSize (t ++ l₂)
          (dtedRowFill b w h col (3428 + col * recordSize) a) := by
      show (if 3428 + col * recordSize + 8 + h * 2 > b.len then a else _) = _
      rw [if_neg (by omega)]
    have hred₂ : dtedColFill b w h recordSize (col :: t) a =
        dtedColFill b w h recordSize t
          (dtedRowFill b w h col (3428 + col * recordSize) a) := by
      show (if 3428 + col * recordSize + 8 + h * 2 > b.len then a else _) = _
      rw [if_neg (by omega)]
    rw [List.cons_append, hred, hred₂]
    exact ih _ (fun x hx => hin x (List.mem_cons_of_mem _ hx))

theorem loadDtedFile_ok (b : Buffer) (L P : ℤ)
    (hlen : 3440 ≤ b.len)
    (hsig : b.data 0 = 85 ∧ b.data 1 = 72 ∧ b.data 2 = 76)
    (hL : parseIntBytes (sliceBytes b 47 51) = some L)
    (hP : parseIntBytes (sliceBytes b 51 55) = some P)
    (hLpos : 0 < L) (hPpos : 0 < P) :
    loadDtedFile b = Except.ok
      ⟨dtedColFill b L.toNat P.toNat (8 + P.toNat * 2 + 4) (List.range L.toNat)
        (Array.mkArray (L.toNat * P.toNat) (-32767 : ℚ)),
       L.toNat, P.toNat, some (-32767)⟩ := by
  unfold loadDtedFile
  rw [if_neg (by omega), if_neg (not_not_intro hsig)]
  rw [hL, hP]
  dsimp only
  rw [if_neg (by omega)]

theorem mod_cell_index (w q c : ℕ) (hc : c < w) : (q * w + c) % w = c := by
  rw [Nat.add_comm, Nat.add_mul_mod_self_right]
  exact Nat.mod_eq_of_lt hc

/-- **C4.** For a DTED buffer passing the header checks, a stored 16-bit
big-endian value at source row `r0` of column `c` — whole column record in
range, high bit of the high byte set, 15-bit magnitude `m` — decodes to
elevation `−m` and lands at output row `numLatPoints − 1 − r0` of column `c`
(south-to-north file rows flipped to north-to-south). -/
theorem dted_sign_magnitude_row_flip (b : Buffer) (L P : ℤ) (r0 c : ℕ)
    (hlen : 3440 ≤ b.len)
    (hsig : b.data 0 = 85 ∧ b.data 1 = 72 ∧ b.data 2 = 76)
    (hL : parseIntBytes (sliceBytes b 47 51) = some L)
    (hP : parseIntBytes (sliceBytes b 51 55) = some P)
    (hLpos : 0 < L) (hPpos : 0 < P)
    (hr0 : r0 < P.toNat) (hc : c < L.toNat)
    (hrec : 3428 + c * (8 + P.toNat * 2 + 4) + 8 + P.toNat * 2 ≤ b.len)
    (hhi₁ : 128 ≤ b.data (3428 + c * (8 + P.toNat * 2 + 4) + 8 + r0 * 2))
    (hhi₂ : b.data (3428 + c * (8 + P.toNat * 2 + 4) + 8 + r0 * 2) < 256)
    (hlo : b.data (3428 + c * (8 + P.toNat * 2 + 4) + 8 + r0 * 2 + 1) < 256) :
    ∃ t, loadDtedFile b = Except.ok t ∧
      t.width = L.toNat ∧ t.height = P.toNat ∧
      t.elevations.getD ((P.toNat - 1 - r0) * L.toNat + c) 0 =
        -(((b.data (3428 + c * (8 + P.toNat * 2 + 4) + 8 + r0 * 2) - 128) * 256 +
          b.data (3428 + c * (8 + P.toNat * 2 + 4) + 8 + r0 * 2 + 1) : ℕ) : ℚ) := by
  refine ⟨_, loadDtedFile_ok b L P hlen hsig hL hP hLpos hPpos, rfl, rfl, ?_⟩
  set w := L.toNat with hw
  set h := P.toNat with hh
  set rs := 8 + h * 2 + 4 with hrs
  have hrecmono : ∀ col ≤ c, 3428 + col * rs + 8 + h * 2 ≤ b.len := by
    intro col hcol
    have : col * rs ≤ c * rs := Nat.mul_le_mul_right rs hcol
    omega
  have hsplit : List.range w =
      (List.range c ++ [c]) ++ (List.range (w - (c + 1))).map (fun k => (c + 1) + k) := by
    rw [← List.range_succ, ← List.range_add]
    congr 1
    omega
  rw [hsplit]
  rw [colFill_append b w h rs (List.range c ++ [c]) _ _
    (by
      intro col hcolmem
      rcases List.mem_append.mp hcolmem with hm | hm
      · exact hrecmono col (le_of_lt (List.mem_range.mp hm))
      · rw [List.mem_singleton.mp hm]
        exact hrecmono c (le_refl c))]
  rw [colFill_getD_skip b w h rs c _ (mod_cell_index w _ c hc) hc _ _
    (by
      intro col hcolmem
      obtain ⟨k, hk, rfl⟩ := List.mem_map.mp hcolmem
      have := List.mem_range.mp hk
      omega)
    (by
      intro col hcolmem heq
      obtain ⟨k, hk, rfl⟩ := List.mem_map.mp hcolmem
      omega)]
  rw [colFill_append b w h rs (List.range c) [c] _
    (fun col hm => hrecmono col (le_of_lt (List.mem_range.mp hm)))]
  have hone : dtedColFill b w h rs [c]
      (dtedColFill b w h rs (List.range c)
        (Array.mkArray (w * h) (-32767 : ℚ))) =
      dtedRowFill b w h c (3428 + c * rs)
        (dtedColFill b w h rs (List.range c)
          (Array.mkArray (w * h) (-32767 : ℚ))) := by
    show (if 3428 + c * rs + 8 + h * 2 > b.len then _ else _) = _
    rw [if_neg (by omega)]
    rfl
  rw [hone]
  unfold dtedRowFill
  rw [rowFill_foldl_eq b w h c (3428 + c * rs) r0 hr0 hc (List.range h) _
    (by rw [size_dtedColFill, Array.size_mkArray])
    (List.nodup_range h) (List.mem_range.mpr hr0)
    (fun row hm => List.mem_range.mp hm)]
  rw [dtedSample_eq _ _ hhi₂ hlo, if_pos hhi₁]
  push_cast
  ring

/-- **C10.** A DTED buffer passing the header checks whose data region is too
short for some column records still decodes successfully, and every cell of a
column whose record extends past the buffer end stays at the −32767
sentinel. -/
theorem dted_truncated_column_sentinel (b : Buffer) (L P : ℤ) (c : ℕ)
    (hlen : 3440 ≤ b.len)
    (hsig : b.data 0 = 85 ∧ b.data 1 = 72 ∧ b.data 2 = 76)
    (hL : parseIntBytes (sliceBytes b 47 51) = some L)
    (hP : parseIntBytes (sliceBytes b 51 55) = some P)
    (hLpos : 0 < L) (hPpos : 0 < P)
    (hc : c < L.toNat)
    (hover : b.len < 3428 + c * (8 + P.toNat * 2 + 4) + 8 + P.toNat * 2) :
    ∃ t, loadDtedFile b = Except.ok t ∧
      t.width = L.toNat ∧ t.height = P.toNat ∧
      ∀ row < P.toNat,
        t.elevations.getD (row * L.toNat + c) 0 = -32767 := by
  refine ⟨_, loadDtedFile_ok b L P hlen hsig hL hP hLpos hPpos, rfl, rfl, ?_⟩
  intro row hrow
  rw [colFill_getD_skip b L.toNat P.toNat (8 + P.toNat * 2 + 4) c _
    (mod_cell_index L.toNat _ c hc) hc _ _
    (fun col hm => List.mem_range.mp hm)
    (by
      intro col hm heq
      subst heq
      omega)]
  rw [getD_eq_get _ _ _
    (by rw [Array.size_mkArray]; exact cell_index_lt _ _ _ _ hrow hc)]
  simp

/-- A small DTED buffer: "UHL" signature, 2 longitude lines, 1 latitude
point; column 0's record carries the sign-magnitude sample `0x80 0x64`
(magnitude 100, negation bit set); column 1's record overruns the 3440-byte
buffer. -/
def dtedSampleBuf : Buffer where
  data := fun i =>
    if i = 0 then 85 else if i = 1 then 72 else if i = 2 then 76
    else if i = 47 then 48 else if i = 48 then 48 else if i = 49 then 48
    else if i = 50 then 50
    else if i = 51 then 48 else if i = 52 then 48 else if i = 53 then 48
    else if i = 54 then 49
    else if i = 3436 then 128 else if i = 3437 then 100
    else 0
  len := 3440

/-- **C4 witness.** On `dtedSampleBuf`, the stored value `0x8064` at source
row 0 of column 0 decodes to −100 at output cell 0. -/
theorem dted_sign_magnitude_row_flip_witness :
    ∃ t, loadDtedFile dtedSampleBuf = Except.ok t ∧
      t.width = 2 ∧ t.height = 1 ∧
      t.elevations.getD 0 0 = -(100 : ℚ) := by
  have h := dted_sign_magnitude_row_flip dtedSampleBuf 2 1 0 0
    (by with_unfolding_all decide) (by with_unfolding_all decide)
    (by with_unfolding_all rfl) (by with_unfolding_all rfl)
    (by decide) (by decide) (by with_unfolding_all decide)
    (by with_unfolding_all decide) (by with_unfolding_all decide)
    (by with_unfolding_all decide) (by with_unfolding_all decide)
    (by with_unfolding_all decide)
  simpa [show dtedSampleBuf.data 3436 = 128 from by with_unfolding_all rfl,
    show dtedSampleBuf.data 3437 = 100 from by with_unfolding_all rfl] using h

/-- **C10 witness.** On `dtedSampleBuf`, column 1's record overruns the
buffer; its single cell stays at −32767 while decoding succeeds. -/
theorem dted_truncated_column_sentinel_witness :
    ∃ t, loadDtedFile dtedSampleBuf = Except.ok t ∧
      t.width = 2 ∧ t.height = 1 ∧
      ∀ row < 1, t.elevations.getD (row * 2 + 1) 0 = -32767 := by
  have h := dted_truncated_column_sentinel dtedSampleBuf 2 1 1
    (by with_unfolding_all decide) (by with_unfolding_all decide)
    (by with_unfolding_all rfl) (by with_unfolding_all rfl)
    (by decide) (by decide) (by with_unfolding_all decide)
    (by with_unfolding_all decide)
  simpa using h

theorem lt_cdiv_iff (n s k : ℕ) (hs : 1 ≤ s) : k < cdiv n s ↔ k * s < n := by
  unfold cdiv
  constructor
  · intro h
    have h₁ : k + 1 ≤ (n + s - 1) / s := h
    rw [Nat.le_div_iff_mul_le hs] at h₁
    have h₂ : (k + 1) * s = k * s + s := by ring
    omega
  · intro h
    have h₁ : (k + 1) * s ≤ n + s - 1 := by
      have h₂ : (k + 1) * s = k * s + s := by ring
      omega
    exact Nat.lt_of_lt_of_le (Nat.lt_succ_self k) ((Nat.le_div_iff_mul_le hs).mpr h₁)

theorem cdiv_le_self (n s : ℕ) (hs : 1 ≤ s) : cdiv n s ≤ n := by
  by_contra hlt
  push_neg at hlt
  have h₁ : n * s < n := (lt_cdiv_iff n s n hs).mp hlt
  have h₂ : n ≤ n * s := Nat.le_mul_of_pos_right n hs
  omega

theorem le_cdiv_mul (n s : ℕ) (hs : 1 ≤ s) : n ≤ cdiv n s * s := by
  by_contra hlt
  push_neg at hlt
  exact absurd ((lt_cdiv_iff n s (cdiv n s) hs).mpr hlt) (lt_irrefl _)

theorem cdiv_of_dvd (M s : ℕ) (hs : 1 ≤ s) (h : M % s = 0) : cdiv M s = M / s := by
  have hq : s * (M / s) + M % s = M := Nat.div_add_mod M s
  have hexp : (M / s + 1) * s = s * (M / s) + s := by ring
  have hlo : M / s * s = s * (M / s) := by ring
  apply Nat.div_eq_of_lt_le
  · omega
  · show M + s - 1 < (M / s + 1) * s
    omega

theorem cdiv_succ_of_dvd (M s : ℕ) (hs : 1 ≤ s) (h : M % s = 0) :
    cdiv (M + 1) s = M / s + 1 := by
  have hq : s * (M / s) + M % s = M := Nat.div_add_mod M s
  have hexp : (M / s + 1) * s = s * (M / s) + s := by ring
  have hexp₂ : (M / s + 1 + 1) * s = s * (M / s) + s + s := by ring
  apply Nat.div_eq_of_lt_le
  · omega
  · show M + 1 + s - 1 < (M / s + 1 + 1) * s
    omega

theorem cdiv_succ_of_ndvd (M s : ℕ) (hs : 1 ≤ s) (h : M % s ≠ 0) :
    cdiv (M + 1) s = cdiv M s := by
  have hq : s * (M / s) + M % s = M := Nat.div_add_mod M s
  have hrlt : M % s < s := Nat.mod_lt M (by omega)
  have hexp : (M / s + 1) * s = s * (M / s) + s := by ring
  have hexp₂ : (M / s + 1 + 1) * s = s * (M / s) + s + s := by ring
  have ha : cdiv M s = M / s + 1 := by
    apply Nat.div_eq_of_lt_le
    · omega
    · show M + s - 1 < (M / s + 1 + 1) * s
      omega
  have hb : cdiv (M + 1) s = M / s + 1 := by
    apply Nat.div_eq_of_lt_le
    · omega
    · show M + 1 + s - 1 < (M / s + 1 + 1) * s
      omega
  rw [ha, hb]

theorem uncompLoop_eq (b : Buffer) (hd : LasHeader) (s : ℕ) (hs : 1 ≤ s)
    (hin : ∀ i, i < hd.numberOfPoints →
      hd.offsetToPointData + i * hd.pointDataRecordLength + 12 ≤ b.len) :
    ∀ (fuel k : ℕ), cdiv hd.numberOfPoints s - k ≤ fuel →
      uncompLoop b hd s (cdiv hd.numberOfPoints s) fuel (k * s) k =
        (List.range (cdiv hd.numberOfPoints s - k)).map
          (fun j => decodePointAt b hd ((k + j) * s)) := by
  intro fuel
  induction fuel with
  | zero =>
    intro k hk
    have h₀ : cdiv hd.numberOfPoints s - k = 0 := by omega
    rw [h₀]
    rfl
  | succ fuel ih =>
    intro k hk
    by_cases hkc : k < cdiv hd.numberOfPoints s
    · have hkn : k * s < hd.numberOfPoints := (lt_cdiv_iff _ _ _ hs).mp hkc
      show (if k * s < hd.numberOfPoints ∧ k < cdiv hd.numberOfPoints s then
          if hd.offsetToPointData + k * s * hd.pointDataRecordLength + 12 > b.len
          then []
          else decodePointAt b hd (k * s) ::
            uncompLoop b hd s (cdiv hd.numberOfPoints s) fuel (k * s + s) (k + 1)
        else []) = _
      rw [if_pos ⟨hkn, hkc⟩, if_neg (by push_neg; exact hin _ hkn)]
      have hstep : k * s + s = (k + 1) * s := by ring
      rw [hstep, ih (k + 1) (by omega)]
      have hc : cdiv hd.numberOfPoints s - k =
          (cdiv hd.numberOfPoints s - (k + 1)) + 1 := by omega
      rw [hc, List.range_succ_eq_map]
      rw [List.map_cons, List.map_map]
      congr 1
      apply List.map_congr_left
      intro j hj
      simp only [Function.comp_apply]
      congr 2
      omega
    · have h₀ : cdiv hd.numberOfPoints s - k = 0 := by omega
      rw [h₀]
      show (if k * s < hd.numberOfPoints ∧ k < cdiv hd.numberOfPoints s then _ else []) = _
      rw [if_neg (by tauto)]
      rfl

theorem lazLoop_eq (oracle : LazOracle) (hd : LasHeader) (s : ℕ) (hs : 1 ≤ s) :
    ∀ M, M ≤ oracle.count →
      (List.range M).foldl
        (fun (st : ℕ × List XyzPoint) i =>
          if i % s = 0 ∧ st.1 < cdiv oracle.count s then
            (st.1 + 1, st.2 ++ [lazDecode hd (oracle.point i)])
          else st)
        (0, []) =
        (cdiv M s,
         (List.range (cdiv M s)).map (fun k => lazDecode hd (oracle.point (k * s)))) := by
  intro M
  induction M with
  | zero =>
    intro _
    rw [show cdiv 0 s = 0 from by unfold cdiv; exact Nat.div_eq_of_lt (by omega)]
    rfl
  | succ M ih =>
    intro hM
    rw [List.range_succ, List.foldl_append, ih (by omega)]
    rw [List.foldl_cons, List.foldl_nil]
    by_cases hmod : M % s = 0
    · have hq : s * (M / s) = M := Nat.mul_div_cancel' (Nat.dvd_of_mod_eq_zero hmod)
      have hms : M / s * s = M := by rw [Nat.mul_comm]; exact hq
      have hdv : cdiv M s = M / s := cdiv_of_dvd M s hs hmod
      have hlt : M / s < cdiv oracle.count s := by
        rw [lt_cdiv_iff _ _ _ hs, hms]
        omega
      rw [if_pos ⟨hmod, by rw [hdv]; exact hlt⟩]
      rw [cdiv_succ_of_dvd M s hs hmod, hdv]
      rw [List.range_succ, List.map_append, List.map_cons, List.map_nil]
      dsimp only
      rw [hms]
    · rw [if_neg (by tauto)]
      rw [cdiv_succ_of_ndvd M s hs hmod]

/-- **C2.** When a LAS/LAZ header claims more than 10,000,000 points and
(uncompressed path) the buffer holds all claimed records, both extraction
paths retain exactly the points at indices `0, s, 2s, …` for
`s = ⌈total/10,000,000⌉`, and the retained indices span the whole file
(`count · s ≥ total`), never a truncated prefix. -/
theorem las_point_cap_uniform_stride (b : Buffer) (hd : LasHeader)
    (oracle : LazOracle)
    (hN : 10000000 < hd.numberOfPoints)
    (hrec : 12 ≤ hd.pointDataRecordLength)
    (hbuf : hd.offsetToPointData +
      hd.numberOfPoints * hd.pointDataRecordLength ≤ b.len)
    (hM : 10000000 < oracle.count) :
    (extractPointsUncompressed b hd =
        (List.range (cdiv hd.numberOfPoints (cdiv hd.numberOfPoints 10000000))).map
          (fun k => decodePointAt b hd (k * cdiv hd.numberOfPoints 10000000)) ∧
      hd.numberOfPoints ≤
        cdiv hd.numberOfPoints (cdiv hd.numberOfPoints 10000000) *
          cdiv hd.numberOfPoints 10000000) ∧
    (extractPointsLaz oracle hd =
        (List.range (cdiv oracle.count (cdiv oracle.count 10000000))).map
          (fun k => lazDecode hd (oracle.point (k * cdiv oracle.count 10000000))) ∧
      oracle.count ≤
        cdiv oracle.count (cdiv oracle.count 10000000) *
          cdiv oracle.count 10000000) := by
  have hs : 1 ≤ cdiv hd.numberOfPoints 10000000 :=
    (lt_cdiv_iff _ _ 0 (by norm_num)).mpr (by simpa using Nat.lt_of_le_of_lt (Nat.zero_le _) hN)
  have hs₂ : 1 ≤ cdiv oracle.count 10000000 :=
    (lt_cdiv_iff _ _ 0 (by norm_num)).mpr (by simpa using Nat.lt_of_le_of_lt (Nat.zero_le _) hM)
  refine ⟨⟨?_, le_cdiv_mul _ _ hs⟩, ⟨?_, le_cdiv_mul _ _ hs₂⟩⟩
  · unfold extractPointsUncompressed
    dsimp only
    rw [min_eq_right (le_of_lt hN), if_pos hN]
    have hin : ∀ i, i < hd.numberOfPoints →
        hd.offsetToPointData + i * hd.pointDataRecordLength + 12 ≤ b.len := by
      intro i hi
      have h₁ : (i + 1) * hd.pointDataRecordLength ≤
          hd.numberOfPoints * hd.pointDataRecordLength :=
        Nat.mul_le_mul_right _ (by omega)
      have h₂ : (i + 1) * hd.pointDataRecordLength =
          i * hd.pointDataRecordLength + hd.pointDataRecordLength := by ring
      omega
    have h := uncompLoop_eq b hd (cdiv hd.numberOfPoints 10000000) hs hin
      (hd.numberOfPoints + 1) 0
      (by
        have := cdiv_le_self hd.numberOfPoints (cdiv hd.numberOfPoints 10000000) hs
        omega)
    simpa using h
  · unfold extractPointsLaz
    dsimp only
    rw [min_eq_right (le_of_lt hM), if_pos hM]
    rw [lazLoop_eq oracle hd (cdiv oracle.count 10000000) hs₂ oracle.count (le_refl _)]

/-- A header claiming 10,000,001 uncompressed points of record length 20
starting at offset 375. -/
def lasStrideHd : LasHeader where
  versionMinor := 4
  pointDataRecordFormat := 0
  pointDataRecordLength := 20
  numberOfPoints := 10000001
  offsetToPointData := 375
  scaleX := 1
  scaleY := 1
  scaleZ := 1
  offsetX := 0
  offsetY := 0
  offsetZ := 0
  minX := 0
  maxX := 0
  minY := 0
  maxY := 0
  minZ := 0
  maxZ := 0
  isLaz := false

/-- A zero-filled buffer long enough for all 10,000,001 records. -/
def lasStrideBuf : Buffer where
  data := fun _ => 0
  len := 375 + 10000001 * 20

/-- A decompressor oracle reporting 10,000,001 points. -/
def lasStrideOracle : LazOracle where
  count := 10000001
  point := fun _ => (0, 0, 0)

/-- **C2 witness.** At 10,000,001 claimed points both paths retain the
stride-2 subset. -/
theorem las_point_cap_uniform_stride_witness :
    10000000 < lasStrideHd.numberOfPoints ∧
      12 ≤ lasStrideHd.pointDataRecordLength ∧
      lasStrideHd.offsetToPointData +
        lasStrideHd.numberOfPoints * lasStrideHd.pointDataRecordLength ≤
        lasStrideBuf.len ∧
      10000000 < lasStrideOracle.count ∧
      ((extractPointsUncompressed lasStrideBuf lasStrideHd =
          (List.range (cdiv lasStrideHd.numberOfPoints
            (cdiv lasStrideHd.numberOfPoints 10000000))).map
            (fun k => decodePointAt lasStrideBuf lasStrideHd
              (k * cdiv lasStrideHd.numberOfPoints 10000000)) ∧
        lasStrideHd.numberOfPoints ≤
          cdiv lasStrideHd.numberOfPoints
              (cdiv lasStrideHd.numberOfPoints 10000000) *
            cdiv lasStrideHd.numberOfPoints 10000000) ∧
       (extractPointsLaz lasStrideOracle lasStrideHd =
          (List.range (cdiv lasStrideOracle.count
            (cdiv lasStrideOracle.count 10000000))).map
            (fun k => lazDecode lasStrideHd (lasStrideOracle.point
              (k * cdiv lasStrideOracle.count 10000000))) ∧
        lasStrideOracle.count ≤
          cdiv lasStrideOracle.count (cdiv lasStrideOracle.count 10000000) *
            cdiv lasStrideOracle.count 10000000)) :=
  ⟨by decide, by decide, by decide, by decide,
   las_point_cap_uniform_stride lasStrideBuf lasStrideHd lasStrideOracle
     (by decide) (by decide) (by decide) (by decide)⟩

/-- **C6 counterexample.** On the input `"ABC"` the header name is nonblank
and the row-count field is missing (parseInt = NaN), so dimension inference
fails; the claim says decoding then proceeds without error, but the text
fallback finds zero numeric values and throws. -/
theorem near_square_fallback_cex :
    demHeaderName "ABC" ≠ [] ∧
      jsParseInt (demRowsField "ABC") = none ∧
      loadUsgsDemFile "ABC" =
        Except.error "No elevation values found in DEM file" := by
  refine ⟨by with_unfolding_all decide, by with_unfolding_all rfl,
    by with_unfolding_all rfl⟩

/-- **C6 (amended).** When dimension inference fails — the USGS DEM
row/column counts missing or non-numeric, or the XYZ input lacking both more
than one distinct X and more than one distinct Y — and, additionally, at
least one numeric value (resp. point) was parsed, the decoder reshapes the
`n` parsed values into a near-square grid with `ceil(sqrt n)` columns and
`ceil(n / width)` rows without raising; with zero parsed values both paths
raise instead. -/
theorem near_square_fallback :
    (∀ text : String, demHeaderName text ≠ [] →
      (jsParseInt (demRowsField text) = none ∨
        jsParseInt (demColsField text) = none) →
      demTextValues text ≠ [] →
      ∃ r, loadUsgsDemFile text = Except.ok r ∧
        r.width = natCeilSqrt (demTextValues text).length ∧
        r.height = cdiv (demTextValues text).length
          (natCeilSqrt (demTextValues text).length)) ∧
    (∀ text : String, xyzPoints text ≠ [] →
      ¬(((xyzPoints text).map XyzPoint.x).dedup.length > 1 ∧
        ((xyzPoints text).map XyzPoint.y).dedup.length > 1) →
      ∃ r, loadXyzFile text = Except.ok r ∧
        r.width = natCeilSqrt (xyzPoints text).length ∧
        r.height = cdiv (xyzPoints text).length
          (natCeilSqrt (xyzPoints text).length)) := by
  constructor
  · intro text hname hdim hn
    unfold loadUsgsDemFile
    rw [if_neg hname]
    dsimp only
    rw [if_pos]
    · unfold parseAsDemText
      rw [if_neg hn]
      exact ⟨_, rfl, rfl, rfl⟩
    · rcases hdim with h | h
      · left
        rw [h]
        rfl
      · right
        rw [h]
        rfl
  · intro text hp hreg
    unfold loadXyzFile
    rw [if_neg hp]
    dsimp only
    rw [if_neg hreg]
    exact ⟨_, rfl, rfl, rfl⟩

/-- **C6 witness.** The DEM text `"ABC 1 2 3 4 5"` (blank count fields, five
values) reshapes to 3×2; the XYZ text `"1 1 10"` (one point, so one distinct
X) reshapes to 1×1. -/
theorem near_square_fallback_witness :
    (demHeaderName "ABC 1 2 3 4 5" ≠ [] ∧
      jsParseInt (demRowsField "ABC 1 2 3 4 5") = none ∧
      demTextValues "ABC 1 2 3 4 5" ≠ [] ∧
      ∃ r, loadUsgsDemFile "ABC 1 2 3 4 5" = Except.ok r ∧
        r.width = natCeilSqrt (demTextValues "ABC 1 2 3 4 5").length ∧
        r.height = cdiv (demTextValues "ABC 1 2 3 4 5").length
          (natCeilSqrt (demTextValues "ABC 1 2 3 4 5").length)) ∧
    (xyzPoints "1 1 10" ≠ [] ∧
      ¬(((xyzPoints "1 1 10").map XyzPoint.x).dedup.length > 1 ∧
        ((xyzPoints "1 1 10").map XyzPoint.y).dedup.length > 1) ∧
      ∃ r, loadXyzFile "1 1 10" = Except.ok r ∧
        r.width = natCeilSqrt (xyzPoints "1 1 10").length ∧
        r.height = cdiv (xyzPoints "1 1 10").length
          (natCeilSqrt (xyzPoints "1 1 10").length)) :=
  ⟨⟨by with_unfolding_all decide, by with_unfolding_all rfl,
    by with_unfolding_all decide,
    near_square_fallback.1 "ABC 1 2 3 4 5" (by with_unfolding_all decide)
      (Or.inl (by with_unfolding_all rfl)) (by with_unfolding_all decide)⟩,
   ⟨by with_unfolding_all decide, by with_unfolding_all decide,
    near_square_fallback.2 "1 1 10" (by with_unfolding_all decide)
      (by with_unfolding_all decide)⟩⟩

end TerraVista
